import Mathlib

/-!
Verification development for the expression-language front end and middle end
(package parser: parser.go; package optimizer: optimizer.go, fold.go,
const_expr.go).  The AST, lexer token shape, operator tables, builtin index
and the file-error record live in sibling packages of the repository that are
not part of the sources verified here; those are modelled from the
specification (sections 3, 4.1, 4.2, 6) and each such definition says so in
its doc comment.  Everything else is a direct translation of the Go sources.
-/

set_option maxRecDepth 10000

namespace OExpr

/-- Modelled from the spec: a source location is a byte offset into the source
buffer (spec section 3); line and column are derived only at reporting time,
which this development does not model. -/
abbrev Pos := Nat

/-- Symbolic IEEE-754 double values.  The parser and optimizer only construct
floats and never inspect or compare them, so float arithmetic is kept as an
uninterpreted term algebra; the evaluator (out of scope) would interpret it. -/
inductive F64 where
| ofString (s : String)
| ofInt (i : Int)
| fneg (x : F64)
| fadd (a b : F64)
| fsub (a b : F64)
| fmul (a b : F64)
| fdiv (a b : F64)
| fpow (a b : F64)
deriving Repr, DecidableEq

/-- Runtime values carried by a ConstantNode (Go type any restricted to the
shapes the optimizer actually produces and consumes: scalars and sequences). -/
inductive Value where
| vnil
| vint (i : Int)
| vfloat (f : F64)
| vbool (b : Bool)
| vstring (s : String)
| vlist (xs : List Value)
deriving Repr

/-- Modelled from the spec: the AST node variants of spec section 3.  Every
node carries a location; nodes freshly built by optimizer passes lack one
(loc = none) until Patch copies the replaced node's location onto them
(spec section 4.1).  The inferred static-type tag is not modelled: no claim
inspects it, and fold's patchWithType writes but never reads it. -/
inductive Node where
| nilN (loc : Option Pos)
| boolN (value : Bool) (loc : Option Pos)
| integerN (value : Int) (loc : Option Pos)
| floatN (value : F64) (loc : Option Pos)
| stringN (value : String) (loc : Option Pos)
| constantN (value : Value) (loc : Option Pos)
| identifierN (name : String) (loc : Option Pos)
| unaryN (op : String) (node : Node) (loc : Option Pos)
| binaryN (op : String) (left right : Node) (loc : Option Pos)
| arrayN (nodes : List Node) (loc : Option Pos)
| mapN (pairs : List Node) (loc : Option Pos)
| pairN (key value : Node) (loc : Option Pos)
| memberN (node property : Node) (optional : Bool) (loc : Option Pos)
| chainN (node : Node) (loc : Option Pos)
| sliceN (node : Node) (sliceFrom sliceTo : Option Node) (loc : Option Pos)
| callN (callee : Node) (arguments : List Node) (loc : Option Pos)
| builtinN (name : String) (arguments : List Node) (loc : Option Pos)
| closureN (node : Node) (loc : Option Pos)
| pointerN (name : String) (loc : Option Pos)
| conditionalN (cond exp1 exp2 : Node) (loc : Option Pos)
| variableDeclaratorN (name : String) (value expr : Node) (loc : Option Pos)
deriving Repr

/-- The location stored in a node (Go method Location on every node type). -/
def Node.loc : Node → Option Pos
| .nilN l => l
| .boolN _ l => l
| .integerN _ l => l
| .floatN _ l => l
| .stringN _ l => l
| .constantN _ l => l
| .identifierN _ l => l
| .unaryN _ _ l => l
| .binaryN _ _ _ l => l
| .arrayN _ l => l
| .mapN _ l => l
| .pairN _ _ l => l
| .memberN _ _ _ l => l
| .chainN _ l => l
| .sliceN _ _ _ l => l
| .callN _ _ l => l
| .builtinN _ _ l => l
| .closureN _ l => l
| .pointerN _ l => l
| .conditionalN _ _ _ l => l
| .variableDeclaratorN _ _ _ l => l

/-- Overwrite the location stored in a node (Go method SetLocation). -/
def Node.setLoc : Node → Option Pos → Node
| .nilN _, l => .nilN l
| .boolN v _, l => .boolN v l
| .integerN v _, l => .integerN v l
| .floatN v _, l => .floatN v l
| .stringN v _, l => .stringN v l
| .constantN v _, l => .constantN v l
| .identifierN v _, l => .identifierN v l
| .unaryN o n _, l => .unaryN o n l
| .binaryN o a b _, l => .binaryN o a b l
| .arrayN ns _, l => .arrayN ns l
| .mapN ps _, l => .mapN ps l
| .pairN k v _, l => .pairN k v l
| .memberN n p o _, l => .memberN n p o l
| .chainN n _, l => .chainN n l
| .sliceN n f t _, l => .sliceN n f t l
| .callN c a _, l => .callN c a l
| .builtinN nm a _, l => .builtinN nm a l
| .closureN n _, l => .closureN n l
| .pointerN nm _, l => .pointerN nm l
| .conditionalN c a b _, l => .conditionalN c a b l
| .variableDeclaratorN nm v e _, l => .variableDeclaratorN nm v e l

/-- A structured error bound to a source location (Go type file.Error, a
sibling package; modelled from the spec: a diagnostic is a location plus a
message, spec section 6). -/
structure FErr where
  loc : Option Pos
  msg : String
deriving Repr, DecidableEq

/-- The error type the optimizer driver returns (Go interface error): either
a located file.Error or some other error value, which carries no location.
User-supplied pure functions return plain error values; those are kept as an
uninterpreted message payload. -/
inductive OptError where
| located (e : FErr)
| raw (msg : String)
deriving Repr, DecidableEq

/-! ## Lexer tokens (external collaborator, spec sections 3 and 6)  -/

/-- Modelled from the spec: token kinds (spec section 3). -/
inductive Kind where
| identifier
| number
| stringT
| operator
| bracket
| eof
deriving Repr, DecidableEq, BEq

/-- Modelled from the spec: a token is a record of kind, value string and
location (spec section 3). -/
structure Token where
  kind : Kind
  value : String
  loc : Pos
deriving Repr, DecidableEq

/-- Go method Token.Is(kind, values...) of the lexer package: the kind must
match, and when values are given the token's value must be among them. -/
def Token.is (t : Token) (k : Kind) (vals : List String) : Bool :=
  t.kind == k && (vals.isEmpty || vals.contains t.value)

/-! ## Operator tables and builtin registry (sibling packages)  -/

structure OpInfo where
  prec : Nat
  leftAssoc : Bool
deriving Repr, DecidableEq

/-- Modelled from the spec: the static binary-operator table (spec section 2
"Operator tables" and the operators named throughout sections 4.2 and 4.4),
with the precedence and associativity the expression language documents:
pipe lowest; or/and; comparisons and membership; range; additive;
multiplicative; power right-associative; nil-coalesce binding tightest. -/
def binaryOpsTable : List (String × OpInfo) :=
  [("|", ⟨0, true⟩),
   ("or", ⟨10, true⟩), ("||", ⟨10, true⟩),
   ("and", ⟨15, true⟩), ("&&", ⟨15, true⟩),
   ("==", ⟨20, true⟩), ("!=", ⟨20, true⟩),
   ("<", ⟨20, true⟩), (">", ⟨20, true⟩),
   (">=", ⟨20, true⟩), ("<=", ⟨20, true⟩),
   ("in", ⟨20, true⟩), ("matches", ⟨20, true⟩),
   ("contains", ⟨20, true⟩), ("startsWith", ⟨20, true⟩),
   ("endsWith", ⟨20, true⟩),
   ("..", ⟨25, true⟩),
   ("+", ⟨30, true⟩), ("-", ⟨30, true⟩),
   ("*", ⟨60, true⟩), ("/", ⟨60, true⟩), ("%", ⟨60, true⟩),
   ("**", ⟨70, false⟩), ("^", ⟨70, false⟩),
   ("??", ⟨500, true⟩)]

def lookupStr {α : Type} : List (String × α) → String → Option α
| [], _ => none
| (k, v) :: rest, n => if k = n then some v else lookupStr rest n

def binaryOp (s : String) : Option OpInfo := lookupStr binaryOpsTable s

/-- Modelled from the spec: the unary-operator table (spec section 2):
logical negation binds looser than arithmetic sign. -/
def unaryOpsTable : List (String × OpInfo) :=
  [("not", ⟨50, true⟩), ("!", ⟨50, true⟩), ("-", ⟨90, true⟩), ("+", ⟨90, true⟩)]

def unaryOp (s : String) : Option OpInfo := lookupStr unaryOpsTable s

/-- The predicate-builtin arity table (parser.go, var predicates). -/
def predicatesTable : List (String × Nat) :=
  [("all", 2), ("none", 2), ("any", 2), ("one", 2), ("filter", 2),
   ("map", 2), ("count", 2), ("find", 2), ("findIndex", 2),
   ("findLast", 2), ("findLastIndex", 2), ("groupBy", 2), ("reduce", 3)]

def predicateArity (s : String) : Option Nat := lookupStr predicatesTable s

/-- Modelled from the spec: names present in the builtin registry consulted
by the parser (Go package builtin, var Index).  The spec (section 6) names
these examples of registry entries: len, all, filter, hasPrefix. -/
def builtinIndexNames : List String := ["len", "all", "filter", "hasPrefix"]

/-- Outcome of calling a user-registered pure function (Go reflect call in
const_expr.go): a single value, a value-and-optional-error pair, or a panic
captured by the recover handler. -/
inductive FnOutcome where
| single (v : Value)
| pairOut (v : Value) (e : Option String)
| panicsWith (msg : String)

def ConstFn := List Value → FnOutcome

/-- The configuration record (Go package conf): the set of builtin names the
parser must hide, and the pure-function map used by constExpr
(spec section 6, Configuration). -/
structure Config where
  disabled : List String
  constFns : List (String × ConstFn)

def defaultConfig : Config := ⟨[], []⟩

/-! ## Number-literal conversion (Go strconv, standard library)  -/

/-- Signed platform integer bound: Go math.MaxInt on a 64-bit platform. -/
def maxInt : Int := 2 ^ 63 - 1

inductive IErr where
| rangeE
| syntaxE
deriving Repr, DecidableEq

/-- Modelled from Go strconv error text, abbreviated to the discriminating
suffix (the full Go text also repeats the function name and the input). -/
def ierrMsg : IErr → String
| .rangeE => "value out of range"
| .syntaxE => "invalid syntax"

/-- Character containment (Go strings.Contains / strings.ContainsAny on a
single character), over the character list so that it evaluates by
unfolding. -/
def strContains (s : String) (c : Char) : Bool := s.data.contains c

/-- Decimal digit-string reading. -/
def decNat (s : String) : Option Nat :=
  if s.data ≠ [] ∧ s.data.all (fun c => c.isDigit) then
    some (s.data.foldl (fun a c => a * 10 + (c.toNat - 48)) 0)
  else none

/-- Go strconv.ParseInt(value, 10, 64): on overflow it returns the clamped
maximal int64 together with a range error; on malformed input, zero and a
syntax error.  Lexed number tokens are unsigned, so only the positive clamp
is modelled. -/
def parseInt10 (s : String) : Int × Option IErr :=
  match decNat s with
  | none => (0, some .syntaxE)
  | some n => if (n : Int) > maxInt then (maxInt, some .rangeE) else ((n : Int), none)

def hexDigitVal (c : Char) : Option Nat :=
  if c.isDigit then some (c.toNat - 48)
  else if 'a' ≤ c ∧ c ≤ 'f' then some (c.toNat - 87)
  else if 'A' ≤ c ∧ c ≤ 'F' then some (c.toNat - 55)
  else none

def hexNat (cs : List Char) : Option Nat :=
  if cs = [] then none
  else cs.foldl (fun acc c => match acc, hexDigitVal c with
    | some a, some d => some (a * 16 + d)
    | _, _ => none) (some 0)

/-- Go strconv.ParseInt(value, 0, 64) as reached from the parser: the value
contains an x, so base auto-detection requires a 0x prefix ahead of hex
digits; overflow clamps with a range error as in the decimal case. -/
def parseIntAuto (s : String) : Int × Option IErr :=
  match s.data with
  | '0' :: 'x' :: rest =>
    match hexNat rest with
    | none => (0, some .syntaxE)
    | some n => if (n : Int) > maxInt then (maxInt, some .rangeE) else ((n : Int), none)
  | _ => (0, some .syntaxE)

/-- Modelled from Go strconv.ParseFloat shape checking, permissive: the
claims under proof never exercise malformed float literals. -/
def floatShapeOk (s : String) : Bool :=
  !s.data.isEmpty &&
    s.data.all (fun c => c.isDigit || c == '.' || c == 'e' || c == 'E' || c == '+' || c == '-')

/-- Go strings.Replace(value, "_", "", -1) applied to number tokens. -/
def stripUnders (s : String) : String := ⟨s.data.filter (fun c => !(c == '_'))⟩

end OExpr

namespace OExpr

/-! ## Parser (parser.go)

The Go parser mutates a parser struct; here the struct is threaded as an
explicit state.  The token cursor, sticky first error, closure depth and
configuration fields follow parser.go exactly.  Every parse function takes a
fuel argument so the mutual recursion is structural; parseWithConfig supplies
fuel large enough that well-formed runs never exhaust it (an exhausted-fuel
state records an internal error and is never reached in the theorems below).
-/

structure PState where
  tokens : List Token
  pos : Nat
  current : Token
  err : Option FErr
  depth : Nat
  config : Config

/-- parser.errorAt: only the first error is retained (sticky). -/
def perrorAt (s : PState) (t : Token) (msg : String) : PState :=
  if s.err.isNone then { s with err := some ⟨some t.loc, msg⟩ } else s

/-- parser.error: errorAt the current token. -/
def perror (s : PState) (msg : String) : PState := perrorAt s s.current msg

/-- parser.next: advance the cursor; past the end, record the error and keep
the current token unchanged. -/
def pnext (s : PState) : PState :=
  let p2 := s.pos + 1
  match s.tokens[p2]? with
  | some t => { s with pos := p2, current := t }
  | none => { (perror s "unexpected end of expression") with pos := p2 }

/-- parser.expect. -/
def pexpect (s : PState) (k : Kind) (vals : List String) : PState :=
  if s.current.is k vals then pnext s
  else perror s ("unexpected token " ++ s.current.value)

def mixingMsg (op : String) : String :=
  "Operator (" ++ op ++ ") and coalesce expressions (??) cannot be mixed. Wrap either by parentheses."

/-- Modelled from the spec: utils.IsValidIdentifier, used so operator tokens
like not or matches can serve as member names (spec section 4.2.8). -/
def isValidIdent (s : String) : Bool :=
  match s.data with
  | [] => false
  | c :: rest => (c.isAlpha || c == '_') && rest.all (fun d => d.isAlphanum || d == '_')

mutual

def parseExpression : Nat → Nat → PState → Node × PState
| 0, _, s => (.nilN none, perror s "internal: parser fuel exhausted")
| fuel + 1, precedence, s =>
  if precedence == 0 && s.current.is .operator ["let"] then
    parseVariableDeclaration fuel s
  else
    let r := parsePrimary fuel s
    let rl := parseExprLoop fuel precedence "" r.1 r.2
    if precedence == 0 then parseConditional fuel rl.1 rl.2 else rl
termination_by structural fuel => fuel

/-- The operator loop of parser.parseExpression (lines 127-185). -/
def parseExprLoop : Nat → Nat → String → Node → PState → Node × PState
| 0, _, _, n, s => (n, perror s "internal: parser fuel exhausted")
| fuel + 1, precedence, prevOp, nodeLeft, s =>
  let opToken := s.current
  if opToken.is .operator [] && s.err.isNone then
    -- compound prefix: "not in", "not contains", ...
    let afterNot :=
      if opToken.is .operator ["not"] then
        let s2 := pnext s
        (true, s2.current, s2.current, s2)
      else (false, opToken, opToken, s)
    let negate := afterNot.1
    let notToken := afterNot.2.1
    let opTok := afterNot.2.2.1
    let s1 := afterNot.2.2.2
    match binaryOp opTok.value with
    | some op =>
      if op.prec ≥ precedence then
        let s2 := pnext s1
        if opTok.value == "|" then
          let rp := parsePipe fuel nodeLeft s2
          parseExprLoop fuel precedence "|" rp.1 rp.2
        else if prevOp == "??" && opTok.value != "??" && !(opTok.is .bracket ["("]) then
          (nodeLeft, perrorAt s2 opTok (mixingMsg opTok.value))
        else
          let rr :=
            if op.leftAssoc then parseExpression fuel (op.prec + 1) s2
            else parseExpression fuel op.prec s2
          let bin := Node.binaryN opTok.value nodeLeft rr.1 (some opTok.loc)
          let node2 := if negate then Node.unaryN "not" bin (some notToken.loc) else bin
          parseExprLoop fuel precedence opTok.value node2 rr.2
      else (nodeLeft, s1)
    | none => (nodeLeft, s1)
  else (nodeLeft, s)
termination_by structural fuel => fuel

def parseVariableDeclaration : Nat → PState → Node × PState
| 0, s => (.nilN none, perror s "internal: parser fuel exhausted")
| fuel + 1, s =>
  let s1 := pexpect s .operator ["let"]
  let variableName := s1.current
  let s2 := pexpect s1 .identifier []
  let s3 := pexpect s2 .operator ["="]
  let rv := parseExpression fuel 0 s3
  let s4 := pexpect rv.2 .operator [";"]
  let rb := parseExpression fuel 0 s4
  (.variableDeclaratorN variableName.value rv.1 rb.1 (some variableName.loc), rb.2)
termination_by structural fuel => fuel

def parseConditional : Nat → Node → PState → Node × PState
| 0, n, s => (n, perror s "internal: parser fuel exhausted")
| fuel + 1, node, s =>
  if s.current.is .operator ["?"] && s.err.isNone then
    let s1 := pnext s
    if !(s1.current.is .operator [":"]) then
      let r1 := parseExpression fuel 0 s1
      let s2 := pexpect r1.2 .operator [":"]
      let r2 := parseExpression fuel 0 s2
      parseConditional fuel (.conditionalN node r1.1 r2.1 none) r2.2
    else
      let s2 := pnext s1
      let r2 := parseExpression fuel 0 s2
      parseConditional fuel (.conditionalN node node r2.1 none) r2.2
  else (node, s)
termination_by structural fuel => fuel

def parsePrimary : Nat → PState → Node × PState
| 0, s => (.nilN none, perror s "internal: parser fuel exhausted")
| fuel + 1, s =>
  let token := s.current
  match (if token.is .operator [] then unaryOp token.value else none) with
  | some op =>
    let s1 := pnext s
    let r := parseExpression fuel op.prec s1
    let node := Node.unaryN token.value r.1 (some token.loc)
    parsePostfixExpression fuel node r.2
  | none =>
    if token.is .bracket ["("] then
      let s1 := pnext s
      let r := parseExpression fuel 0 s1
      let s2 := pexpect r.2 .bracket [")"]
      parsePostfixExpression fuel r.1 s2
    else if s.depth > 0 && (token.is .operator ["#"] || token.is .operator ["."]) then
      -- pointer accessor inside a closure; only # consumes tokens here
      if token.is .operator ["#"] then
        let s1 := pnext s
        let named :=
          if s1.current.is .identifier [] then (s1.current.value, pnext s1) else ("", s1)
        parsePostfixExpression fuel (.pointerN named.1 (some token.loc)) named.2
      else
        parsePostfixExpression fuel (.pointerN "" (some token.loc)) s
    else if s.depth == 0 && (token.is .operator ["#"] || token.is .operator ["."]) then
      parseSecondary fuel (perror s "cannot use pointer accessor outside closure")
    else
      parseSecondary fuel s
termination_by structural fuel => fuel

def parseSecondary : Nat → PState → Node × PState
| 0, s => (.nilN none, perror s "internal: parser fuel exhausted")
| fuel + 1, s =>
  let token := s.current
  match token.kind with
  | .identifier =>
    let s1 := pnext s
    if token.value == "true" then (.boolN true (some token.loc), s1)
    else if token.value == "false" then (.boolN false (some token.loc), s1)
    else if token.value == "nil" then (.nilN (some token.loc), s1)
    else
      let r := parseCall fuel token s1
      parsePostfixExpression fuel r.1 r.2
  | .number =>
    let s1 := pnext s
    let value := stripUnders token.value
    if strContains value 'x' then
      let pr := parseIntAuto value
      let s2 := match pr.2 with
        | some e => perror s1 ("invalid hex literal: " ++ ierrMsg e)
        | none => s1
      if pr.1 > maxInt then (.nilN none, perror s2 "integer literal is too large")
      else (.integerN pr.1 (some token.loc), s2)
    else if strContains value '.' || strContains value 'e' || strContains value 'E' then
      if floatShapeOk value then (.floatN (.ofString value) (some token.loc), s1)
      else (.floatN (.ofInt 0) (some token.loc),
            perror s1 ("invalid float literal: " ++ ierrMsg .syntaxE))
    else
      let pr := parseInt10 value
      let s2 := match pr.2 with
        | some e => perror s1 ("invalid integer literal: " ++ ierrMsg e)
        | none => s1
      if pr.1 > maxInt then (.nilN none, perror s2 "integer literal is too large")
      else (.integerN pr.1 (some token.loc), s2)
  | .stringT =>
    let s1 := pnext s
    (.stringN token.value (some token.loc), s1)
  | _ =>
    if token.is .bracket ["["] then
      let r := parseArrayExpression fuel token s
      parsePostfixExpression fuel r.1 r.2
    else if token.is .bracket ["\x7b"] then
      let r := parseMapExpression fuel token s
      parsePostfixExpression fuel r.1 r.2
    else
      parsePostfixExpression fuel (.nilN none)
        (perror s ("unexpected token " ++ token.value))
termination_by structural fuel => fuel

def parseCall : Nat → Token → PState → Node × PState
| 0, _, s => (.nilN none, perror s "internal: parser fuel exhausted")
| fuel + 1, token, s =>
  if s.current.is .bracket ["("] then
    match predicateArity token.value with
    | some arity =>
      let s1 := pexpect s .bracket ["("]
      let argsA :=
        if arity == 1 then
          let r := parseExpression fuel 0 s1
          ([r.1], r.2)
        else if arity == 2 then
          let r0 := parseExpression fuel 0 s1
          let sA := pexpect r0.2 .operator [","]
          let r1 := parseClosure fuel sA
          ([r0.1, r1.1], r1.2)
        else ([], s1)
      let argsB :=
        if token.value == "reduce" then
          let r0 := parseExpression fuel 0 argsA.2
          let sA := pexpect r0.2 .operator [","]
          let r1 := parseClosure fuel sA
          if r1.2.current.is .operator [","] then
            let sB := pnext r1.2
            let r2 := parseExpression fuel 0 sB
            ([r0.1, r1.1, r2.1], r2.2)
          else ([r0.1, r1.1], r1.2)
        else argsA
      let s4 := pexpect argsB.2 .bracket [")"]
      (.builtinN token.value argsB.1 (some token.loc), s4)
    | none =>
      if builtinIndexNames.contains token.value && !(s.config.disabled.contains token.value) then
        let r := parseArguments fuel s
        (.builtinN token.value r.1 (some token.loc), r.2)
      else
        let r := parseArguments fuel s
        (.callN (.identifierN token.value (some token.loc)) r.1 (some token.loc), r.2)
  else (.identifierN token.value (some token.loc), s)
termination_by structural fuel => fuel

def parseClosure : Nat → PState → Node × PState
| 0, s => (.nilN none, perror s "internal: parser fuel exhausted")
| fuel + 1, s =>
  let startToken := s.current
  let opened :=
    if s.current.is .bracket ["\x7b"] then (true, pnext s) else (false, s)
  let s2 := { opened.2 with depth := opened.2.depth + 1 }
  let r := parseExpression fuel 0 s2
  let s3 := { r.2 with depth := r.2.depth - 1 }
  let s4 := if opened.1 then pexpect s3 .bracket ["\x7d"] else s3
  (.closureN r.1 (some startToken.loc), s4)
termination_by structural fuel => fuel

/-- The element loop of parser.parseArrayExpression. -/
def parseArrayItems : Nat → Bool → List Node → PState → List Node × PState
| 0, _, acc, s => (acc, perror s "internal: parser fuel exhausted")
| fuel + 1, isFirst, acc, s =>
  if !(s.current.is .bracket ["]"]) && s.err.isNone then
    if isFirst then
      let r := parseExpression fuel 0 s
      parseArrayItems fuel false (acc ++ [r.1]) r.2
    else
      let s1 := pexpect s .operator [","]
      if s1.current.is .bracket ["]"] then (acc, s1)
      else
        let r := parseExpression fuel 0 s1
        parseArrayItems fuel false (acc ++ [r.1]) r.2
  else (acc, s)
termination_by structural fuel => fuel

def parseArrayExpression : Nat → Token → PState → Node × PState
| 0, _, s => (.nilN none, perror s "internal: parser fuel exhausted")
| fuel + 1, token, s =>
  let s1 := pexpect s .bracket ["["]
  let items := parseArrayItems fuel true [] s1
  let s2 := pexpect items.2 .bracket ["]"]
  (.arrayN items.1 (some token.loc), s2)
termination_by structural fuel => fuel

/-- The pair loop of parser.parseMapExpression; the key and the pair both
inherit the brace token's location (parser.go lines 487-502). -/
def parseMapItems : Nat → Token → Bool → List Node → PState → List Node × PState
| 0, _, _, acc, s => (acc, perror s "internal: parser fuel exhausted")
| fuel + 1, token, isFirst, acc, s =>
  if !(s.current.is .bracket ["\x7d"]) && s.err.isNone then
    let sA :=
      if isFirst then s
      else
        let s1 := pexpect s .operator [","]
        if s1.current.is .bracket ["\x7d"] then s1
        else if s1.current.is .operator [","] then
          perror s1 ("unexpected token " ++ s1.current.value)
        else s1
    if !isFirst && sA.current.is .bracket ["\x7d"] then (acc, sA)
    else
      let keyR :=
        if sA.current.is .number [] || sA.current.is .stringT [] || sA.current.is .identifier [] then
          ((Node.stringN sA.current.value (some token.loc)), pnext sA)
        else if sA.current.is .bracket ["("] then
          parseExpression fuel 0 sA
        else
          ((Node.nilN none),
           perror sA ("a map key must be a quoted string, a number, a identifier, or an expression enclosed in parentheses (unexpected token " ++ sA.current.value ++ ")"))
      let s2 := pexpect keyR.2 .operator [":"]
      let valR := parseExpression fuel 0 s2
      let pair := Node.pairN keyR.1 valR.1 (some token.loc)
      parseMapItems fuel token false (acc ++ [pair]) valR.2
  else (acc, s)
termination_by structural fuel => fuel

def parseMapExpression : Nat → Token → PState → Node × PState
| 0, _, s => (.nilN none, perror s "internal: parser fuel exhausted")
| fuel + 1, token, s =>
  let s1 := pexpect s .bracket ["\x7b"]
  let items := parseMapItems fuel token true [] s1
  let s2 := pexpect items.2 .bracket ["\x7d"]
  (.mapN items.1 (some token.loc), s2)
termination_by structural fuel => fuel

def parsePostfixExpression : Nat → Node → PState → Node × PState
| 0, n, s => (n, perror s "internal: parser fuel exhausted")
| fuel + 1, node, s =>
  let postfixToken := s.current
  if (postfixToken.is .operator [] || postfixToken.is .bracket []) && s.err.isNone then
    if postfixToken.value == "." || postfixToken.value == "?." then
      let s1 := pnext s
      let propertyToken := s1.current
      let s2 := pnext s1
      let s3 :=
        if propertyToken.kind != .identifier &&
            !(propertyToken.kind == .operator && isValidIdent propertyToken.value) then
          perror s2 "expected name"
        else s2
      let property := Node.stringN propertyToken.value (some propertyToken.loc)
      let unchained : Node × Bool :=
        match node with
        | .chainN inner _ => (inner, true)
        | _ => (node, false)
      let optionalA := postfixToken.value == "?."
      let memberNode := Node.memberN unchained.1 property optionalA (some propertyToken.loc)
      let called :=
        if s3.current.is .bracket ["("] then
          let r := parseArguments fuel s3
          ((Node.callN memberNode r.1 (some propertyToken.loc)), r.2)
        else (memberNode, s3)
      let node3 := if unchained.2 || optionalA then Node.chainN called.1 none else called.1
      parsePostfixExpression fuel node3 called.2
    else if postfixToken.value == "[" then
      let s1 := pnext s
      if s1.current.is .operator [":"] then
        let s2 := pnext s1
        let toR :=
          if !(s2.current.is .bracket ["]"]) then
            let r := parseExpression fuel 0 s2
            (some r.1, r.2)
          else (none, s2)
        let nodeS := Node.sliceN node none toR.1 (some postfixToken.loc)
        let s4 := pexpect toR.2 .bracket ["]"]
        parsePostfixExpression fuel nodeS s4
      else
        let rf := parseExpression fuel 0 s1
        if rf.2.current.is .operator [":"] then
          let s2 := pnext rf.2
          let toR :=
            if !(s2.current.is .bracket ["]"]) then
              let r := parseExpression fuel 0 s2
              (some r.1, r.2)
            else (none, s2)
          let nodeS := Node.sliceN node (some rf.1) toR.1 (some postfixToken.loc)
          let s4 := pexpect toR.2 .bracket ["]"]
          parsePostfixExpression fuel nodeS s4
        else
          let nodeS := Node.memberN node rf.1 false (some postfixToken.loc)
          let s4 := pexpect rf.2 .bracket ["]"]
          parsePostfixExpression fuel nodeS s4
    else (node, s)
  else (node, s)
termination_by structural fuel => fuel

def parsePipe : Nat → Node → PState → Node × PState
| 0, n, s => (n, perror s "internal: parser fuel exhausted")
| fuel + 1, node, s =>
  let identifier := s.current
  let s1 := pexpect s .identifier []
  match predicateArity identifier.value with
  | some arity =>
    let s2 := pexpect s1 .bracket ["("]
    let argsA :=
      if arity == 2 then
        let r := parseClosure fuel s2
        ([node, r.1], r.2)
      else ([node], s2)
    let argsB :=
      if identifier.value == "reduce" then
        let r := parseClosure fuel argsA.2
        let withClosure := argsA.1 ++ [r.1]
        if r.2.current.is .operator [","] then
          let sB := pnext r.2
          let r2 := parseExpression fuel 0 sB
          (withClosure ++ [r2.1], r2.2)
        else (withClosure, r.2)
      else argsA
    let s5 := pexpect argsB.2 .bracket [")"]
    (.builtinN identifier.value argsB.1 (some identifier.loc), s5)
  | none =>
    if builtinIndexNames.contains identifier.value then
      let r := parseArguments fuel s1
      (.builtinN identifier.value (node :: r.1) (some identifier.loc), r.2)
    else
      let r := parseArguments fuel s1
      (.callN (.identifierN identifier.value (some identifier.loc)) (node :: r.1)
        (some identifier.loc), r.2)
termination_by structural fuel => fuel

/-- The argument loop of parser.parseArguments (no trailing comma). -/
def parseArgItems : Nat → Bool → List Node → PState → List Node × PState
| 0, _, acc, s => (acc, perror s "internal: parser fuel exhausted")
| fuel + 1, isFirst, acc, s =>
  if !(s.current.is .bracket [")"]) && s.err.isNone then
    let s1 := if isFirst then s else pexpect s .operator [","]
    let r := parseExpression fuel 0 s1
    parseArgItems fuel false (acc ++ [r.1]) r.2
  else (acc, s)
termination_by structural fuel => fuel

def parseArguments : Nat → PState → List Node × PState
| 0, s => ([], perror s "internal: parser fuel exhausted")
| fuel + 1, s =>
  let s1 := pexpect s .bracket ["("]
  let items := parseArgItems fuel true [] s1
  let s2 := pexpect items.2 .bracket [")"]
  (items.1, s2)
termination_by structural fuel => fuel

end

/-- parser.ParseWithConfig on an already-lexed token stream (the lexer is an
external collaborator, spec section 6; the final token is EOF).  Binding the
error to the source (line/column rendering) is not modelled. -/
def parseWithConfig (tokens : List Token) (config : Config) : Except FErr Node :=
  match tokens with
  | [] => .error ⟨none, "empty token stream"⟩
  | t0 :: _ =>
    let s0 : PState := ⟨tokens, 0, t0, none, 0, config⟩
    let r := parseExpression (tokens.length * 8 + 64) 0 s0
    let s1 :=
      if !(r.2.current.is .eof []) then
        perror r.2 ("unexpected token " ++ r.2.current.value)
      else r.2
    match s1.err with
    | some e => .error e
    | none => .ok r.1

/-- parser.Parse: ParseWithConfig with an empty disabled set. -/
def parseTokens (tokens : List Token) : Except FErr Node :=
  parseWithConfig tokens ⟨[], []⟩

end OExpr

namespace OExpr

/-! ## Tree walker and Patch (Go package ast, a sibling package)

Modelled from the spec (section 4.1): the walker visits every node in
pre-order, invoking the visitor with a handle; a visitor may replace the
current node, and on replacement the walker does NOT recurse into the
replacement in the same pass.  Patch overwrites the slot and, when the new
node lacks a location, the new node inherits the old node's location.
-/

/-- What one visitor invocation did: nothing, a Patch, or an error recorded
in the pass state (fold.err / constExpr.err); an erroring visit performs no
patch. -/
inductive VisitOut where
| keep
| patchN (n : Node)
| failE (e : OptError)

/-- Pass state shared by the visitors: the applied flag and the first-error
slot.  Go visitors assign their err field unconditionally, so a later error
overwrites an earlier one within the same walk. -/
structure WalkSt where
  applied : Bool
  err : Option OptError
deriving Repr, DecidableEq

/-- Modelled from the spec: ast.Patch (spec section 4.1). -/
def patchNode (old new : Node) : Node :=
  if new.loc = none then new.setLoc old.loc else new

mutual

def walkV (v : Node → VisitOut) : Node → WalkSt → Node × WalkSt
| n, s =>
  match v n with
  | .patchN n2 => (patchNode n n2, { s with applied := true })
  | out =>
    let s0 : WalkSt :=
      match out with
      | .failE e => { s with err := some e }
      | _ => s
    match n with
    | .nilN l => (.nilN l, s0)
    | .boolN b l => (.boolN b l, s0)
    | .integerN i l => (.integerN i l, s0)
    | .floatN f l => (.floatN f l, s0)
    | .stringN v2 l => (.stringN v2 l, s0)
    | .constantN v2 l => (.constantN v2 l, s0)
    | .identifierN nm l => (.identifierN nm l, s0)
    | .pointerN nm l => (.pointerN nm l, s0)
    | .unaryN op c l =>
      let r := walkV v c s0
      (.unaryN op r.1 l, r.2)
    | .binaryN op a b l =>
      let ra := walkV v a s0
      let rb := walkV v b ra.2
      (.binaryN op ra.1 rb.1 l, rb.2)
    | .arrayN ns l =>
      let r := walkVL v ns s0
      (.arrayN r.1 l, r.2)
    | .mapN ps l =>
      let r := walkVL v ps s0
      (.mapN r.1 l, r.2)
    | .pairN k w l =>
      let rk := walkV v k s0
      let rw := walkV v w rk.2
      (.pairN rk.1 rw.1 l, rw.2)
    | .memberN nd p o l =>
      let rn := walkV v nd s0
      let rp := walkV v p rn.2
      (.memberN rn.1 rp.1 o l, rp.2)
    | .chainN nd l =>
      let r := walkV v nd s0
      (.chainN r.1 l, r.2)
    | .sliceN nd f t l =>
      let rn := walkV v nd s0
      let rf := walkVO v f rn.2
      let rt := walkVO v t rf.2
      (.sliceN rn.1 rf.1 rt.1 l, rt.2)
    | .callN c as l =>
      let rc := walkV v c s0
      let ra := walkVL v as rc.2
      (.callN rc.1 ra.1 l, ra.2)
    | .builtinN nm as l =>
      let ra := walkVL v as s0
      (.builtinN nm ra.1 l, ra.2)
    | .closureN nd l =>
      let r := walkV v nd s0
      (.closureN r.1 l, r.2)
    | .conditionalN c e1 e2 l =>
      let rc := walkV v c s0
      let r1 := walkV v e1 rc.2
      let r2 := walkV v e2 r1.2
      (.conditionalN rc.1 r1.1 r2.1 l, r2.2)
    | .variableDeclaratorN nm vl ex l =>
      let rv := walkV v vl s0
      let re := walkV v ex rv.2
      (.variableDeclaratorN nm rv.1 re.1 l, re.2)
termination_by structural n => n

def walkVL (v : Node → VisitOut) : List Node → WalkSt → List Node × WalkSt
| [], s => ([], s)
| n :: ns, s =>
  let r := walkV v n s
  let rs := walkVL v ns r.2
  (r.1 :: rs.1, rs.2)
termination_by structural ns => ns

def walkVO (v : Node → VisitOut) : Option Node → WalkSt → Option Node × WalkSt
| none, s => (none, s)
| some n, s =>
  let r := walkV v n s
  (some r.1, r.2)
termination_by structural o => o

end

def initSt : WalkSt := ⟨false, none⟩

/-! ## Fold pass (fold.go)  -/

/-- Go int64 two's-complement wraparound for +, -, *, unary minus. -/
def wrapInt (x : Int) : Int := (x + 2 ^ 63).emod (2 ^ 64) - 2 ^ 63

/-- optimizer.toBool: the node as a bool literal, if it is one. -/
def toBoolLit : Node → Option Bool
| .boolN b _ => some b
| _ => none

/-- fold.go array case: the element kinds eligible for constant collection. -/
def scalarLit : Node → Bool
| .integerN _ _ => true
| .floatN _ _ => true
| .stringN _ _ => true
| .boolN _ _ => true
| _ => false

def litVal : Node → Value
| .integerN i _ => .vint i
| .floatN f _ => .vfloat f
| .stringN s _ => .vstring s
| .boolN b _ => .vbool b
| _ => .vnil

/-- fold.Visit on a UnaryNode (fold.go lines 43-63). -/
def foldUnary (op : String) (c : Node) : VisitOut :=
  if op = "-" then
    match c with
    | .integerN i _ => .patchN (.integerN (wrapInt (-i)) none)
    | .floatN f _ => .patchN (.floatN (.fneg f) none)
    | _ => .keep
  else if op = "+" then
    match c with
    | .integerN i _ => .patchN (.integerN i none)
    | .floatN f _ => .patchN (.floatN f none)
    | _ => .keep
  else if op = "!" ∨ op = "not" then
    match c with
    | .boolN b _ => .patchN (.boolN (!b) none)
    | _ => .keep
  else .keep

/-- fold.Visit, BinaryNode, case "+" (fold.go lines 67-102).  The Go switch
tries int/int, int/float, float/int, float/float, string/string in sequence;
the guards are mutually exclusive, so a match on the operand pair is
equivalent. -/
def foldAdd (a b : Node) : VisitOut :=
  match a, b with
  | .integerN x _, .integerN y _ => .patchN (.integerN (wrapInt (x + y)) none)
  | .integerN x _, .floatN y _ => .patchN (.floatN (.fadd (.ofInt x) y) none)
  | .floatN x _, .integerN y _ => .patchN (.floatN (.fadd x (.ofInt y)) none)
  | .floatN x _, .floatN y _ => .patchN (.floatN (.fadd x y) none)
  | .stringN x _, .stringN y _ => .patchN (.stringN (x ++ y) none)
  | _, _ => .keep

/-- fold.Visit, BinaryNode, case "-" (fold.go lines 103-131). -/
def foldSub (a b : Node) : VisitOut :=
  match a, b with
  | .integerN x _, .integerN y _ => .patchN (.integerN (wrapInt (x - y)) none)
  | .integerN x _, .floatN y _ => .patchN (.floatN (.fsub (.ofInt x) y) none)
  | .floatN x _, .integerN y _ => .patchN (.floatN (.fsub x (.ofInt y)) none)
  | .floatN x _, .floatN y _ => .patchN (.floatN (.fsub x y) none)
  | _, _ => .keep

/-- fold.Visit, BinaryNode, case "*" (fold.go lines 132-160). -/
def foldMul (a b : Node) : VisitOut :=
  match a, b with
  | .integerN x _, .integerN y _ => .patchN (.integerN (wrapInt (x * y)) none)
  | .integerN x _, .floatN y _ => .patchN (.floatN (.fmul (.ofInt x) y) none)
  | .floatN x _, .integerN y _ => .patchN (.floatN (.fmul x (.ofInt y)) none)
  | .floatN x _, .floatN y _ => .patchN (.floatN (.fmul x y) none)
  | _, _ => .keep

/-- fold.Visit, BinaryNode, case "/" (fold.go lines 161-189): always a
float result, even for two integer literals and even with zero divisor. -/
def foldDiv (a b : Node) : VisitOut :=
  match a, b with
  | .integerN x _, .integerN y _ => .patchN (.floatN (.fdiv (.ofInt x) (.ofInt y)) none)
  | .integerN x _, .floatN y _ => .patchN (.floatN (.fdiv (.ofInt x) y) none)
  | .floatN x _, .integerN y _ => .patchN (.floatN (.fdiv x (.ofInt y)) none)
  | .floatN x _, .floatN y _ => .patchN (.floatN (.fdiv x y) none)
  | _, _ => .keep

/-- fold.Visit, BinaryNode, case "%" (fold.go lines 190-202): integer-only;
a literal zero divisor records the error at the binary node's location and
performs no patch. -/
def foldMod (a b : Node) (l : Option Pos) : VisitOut :=
  match a, b with
  | .integerN x _, .integerN y _ =>
    if y = 0 then .failE (.located ⟨l, "integer divide by zero"⟩)
    else .patchN (.integerN (Int.tmod x y) none)
  | _, _ => .keep

/-- fold.Visit, BinaryNode, cases "**" and "^" (fold.go lines 203-231). -/
def foldPow (a b : Node) : VisitOut :=
  match a, b with
  | .integerN x _, .integerN y _ => .patchN (.floatN (.fpow (.ofInt x) (.ofInt y)) none)
  | .integerN x _, .floatN y _ => .patchN (.floatN (.fpow (.ofInt x) y) none)
  | .floatN x _, .integerN y _ => .patchN (.floatN (.fpow x (.ofInt y)) none)
  | .floatN x _, .floatN y _ => .patchN (.floatN (.fpow x y) none)
  | _, _ => .keep

/-- fold.Visit, BinaryNode, cases "and" and "&&" (fold.go lines 232-242):
short-circuit identities that fire with only one literal side. -/
def foldAndOp (a b : Node) : VisitOut :=
  let ab := toBoolLit a
  let bb := toBoolLit b
  if ab = some true then .patchN b
  else if bb = some true then .patchN a
  else if ab = some false ∨ bb = some false then .patchN (.boolN false none)
  else .keep

/-- fold.Visit, BinaryNode, cases "or" and "||" (fold.go lines 243-253). -/
def foldOrOp (a b : Node) : VisitOut :=
  let ab := toBoolLit a
  let bb := toBoolLit b
  if ab = some false then .patchN b
  else if bb = some false then .patchN a
  else if ab = some true ∨ bb = some true then .patchN (.boolN true none)
  else .keep

/-- fold.Visit, BinaryNode, case "==" (fold.go lines 254-275): folded only
for int, string and bool literal pairs. -/
def foldEqOp (a b : Node) : VisitOut :=
  match a, b with
  | .integerN x _, .integerN y _ => .patchN (.boolN (x == y) none)
  | .stringN x _, .stringN y _ => .patchN (.boolN (x == y) none)
  | .boolN x _, .boolN y _ => .patchN (.boolN (x == y) none)
  | _, _ => .keep

/-- fold.Visit on a BinaryNode (fold.go lines 65-276): dispatch on the
operator exactly as the Go switch does. -/
def foldBinary (op : String) (a b : Node) (l : Option Pos) : VisitOut :=
  if op = "+" then foldAdd a b
  else if op = "-" then foldSub a b
  else if op = "*" then foldMul a b
  else if op = "/" then foldDiv a b
  else if op = "%" then foldMod a b l
  else if op = "**" ∨ op = "^" then foldPow a b
  else if op = "and" ∨ op = "&&" then foldAndOp a b
  else if op = "or" ∨ op = "||" then foldOrOp a b
  else if op = "==" then foldEqOp a b
  else .keep

/-- fold.Visit on an ArrayNode (fold.go lines 278-302): only non-empty
all-literal arrays collapse to a Constant. -/
def foldArray (ns : List Node) : VisitOut :=
  match ns with
  | [] => .keep
  | _ =>
    if ns.all scalarLit then .patchN (.constantN (.vlist (ns.map litVal)) none)
    else .keep

/-- fold.Visit on a BuiltinNode (fold.go lines 304-323).  The Go code reads
base.Arguments[0] and base.Arguments[1] unconditionally; an inner filter with
fewer than two arguments would make it panic, which is unreachable for
parser-produced trees (the parser always gives filter exactly two
arguments), so that shape is left unrewritten here. -/
def foldBuiltin (nm : String) (args : List Node) : VisitOut :=
  if nm = "filter" then
    match args with
    | [a0, a1] =>
      match a0 with
      | .builtinN bn (b0 :: b1 :: _) _ =>
        if bn = "filter" then
          .patchN (.builtinN "filter" [b0, .binaryN "&&" b1 a1 none] none)
        else .keep
      | _ => .keep
    | _ => .keep
  else .keep

/-- fold.Visit (fold.go): dispatch on the node variant. -/
def foldVisit : Node → VisitOut
| .unaryN op c _ => foldUnary op c
| .binaryN op a b l => foldBinary op a b l
| .arrayN ns _ => foldArray ns
| .builtinN nm args _ => foldBuiltin nm args
| _ => .keep

/-- The fold fixpoint loop of Optimize (optimizer.go lines 10-19): walk with
a fresh fold state, return the error if one was recorded, stop when no patch
was applied; at most the given number of walks (Go runs up to 1001). -/
def foldLoop : Nat → Node → Except OptError Node
| 0, n => .ok n
| fuel + 1, n =>
  let r := walkV foldVisit n initSt
  match r.2.err with
  | some e => .error e
  | none => if r.2.applied then foldLoop fuel r.1 else .ok r.1

/-! ## ConstExpr pass (const_expr.go)  -/

/-- const_expr.go lines 47-63: the literal shapes accepted as arguments of a
registered pure function; any other argument shape skips the optimization. -/
def literalParam : Node → Option Value
| .nilN _ => some .vnil
| .integerN i _ => some (.vint i)
| .floatN f _ => some (.vfloat f)
| .boolN b _ => some (.vbool b)
| .stringN s _ => some (.vstring s)
| .constantN v _ => some v
| _ => none

def literalParams : List Node → Option (List Value)
| [] => some []
| n :: ns =>
  match literalParam n, literalParams ns with
  | some v, some vs => some (v :: vs)
  | _, _ => none

/-- Go strings.Replace(msg, pat, rep, 1): replace the first occurrence only
(the pattern used by constExpr is non-empty). -/
def replOnceAux (pat rep : List Char) : List Char → List Char → List Char
| pre, [] => pre.reverse
| pre, c :: cs =>
  if (c :: cs).take pat.length = pat then pre.reverse ++ rep ++ (c :: cs).drop pat.length
  else replOnceAux pat rep (c :: pre) cs
termination_by structural _ r => r

def replaceOnce (s pat rep : String) : String :=
  ⟨replOnceAux pat.data rep.data [] s.data⟩

/-- constExpr.Visit (const_expr.go): on a call of a registered pure function
whose arguments are all literals, invoke it; a returned non-nil error is
recorded as-is (line 77) with no location attached, while a recovered panic
becomes a located file.Error at the call node with the runtime-error marker
rewritten (lines 21-30). -/
def constExprVisit (fns : List (String × ConstFn)) : Node → VisitOut
| .callN (.identifierN name _) args l =>
  match lookupStr fns name with
  | none => .keep
  | some f =>
    match literalParams args with
    | none => .keep
    | some ps =>
      match f ps with
      | .single v => .patchN (.constantN v none)
      | .pairOut v none => .patchN (.constantN v none)
      | .pairOut _ (some e) => .failE (.raw e)
      | .panicsWith msg =>
        .failE (.located ⟨l, replaceOnce msg "runtime error:" "compile error:"⟩)
| _ => .keep

/-- The constExpr fixpoint loop of Optimize (optimizer.go lines 20-33);
Go runs up to 101 walks. -/
def constLoop : Nat → List (String × ConstFn) → Node → Except OptError Node
| 0, _, n => .ok n
| fuel + 1, fns, n =>
  let r := walkV (constExprVisit fns) n initSt
  match r.2.err with
  | some e => .error e
  | none => if r.2.applied then constLoop fuel fns r.1 else .ok r.1

/-! ## Specialization passes (in_array.go and friends, sibling files of the
optimizer package that are not among the verified sources) -/

/-- Modelled from the spec: the inArray pass (spec section 4.6) turns
x in [literal array] into a membership test against a Constant sequence. -/
def inArrayVisit : Node → VisitOut
| .binaryN op x r _ =>
  if op = "in" then
    match r with
    | .arrayN ns _ =>
      if ns.all scalarLit then
        .patchN (.binaryN "in" x (.constantN (.vlist (ns.map litVal)) none) none)
      else .keep
    | _ => .keep
  else .keep
| _ => .keep

/-- Modelled from the spec: the inRange pass (spec section 4.6) turns
x in a..b with integer-literal bounds into a bounded comparison. -/
def inRangeVisit : Node → VisitOut
| .binaryN op x r _ =>
  if op = "in" then
    match r with
    | .binaryN op2 (.integerN a la) (.integerN b lb) _ =>
      if op2 = ".." then
        .patchN (.binaryN "&&"
          (.binaryN ">=" x (.integerN a la) none)
          (.binaryN "<=" x (.integerN b lb) none) none)
      else .keep
    | _ => .keep
  else .keep
| _ => .keep

def intRangeValues (a b : Int) : List Value :=
  (List.range (b - a + 1).toNat).map (fun k => .vint (a + k))

/-- Modelled from the spec: the constRange pass (spec section 4.6)
materializes fully-constant integer ranges into Constant sequences. -/
def constRangeVisit : Node → VisitOut
| .binaryN op (.integerN a _) (.integerN b _) _ =>
  if op = ".." then .patchN (.constantN (.vlist (intRangeValues a b)) none)
  else .keep
| _ => .keep

/-- Modelled from the spec: the filterMap pass (spec section 4.6) fuses
map over filter into a dedicated builtin form. -/
def filterMapVisit : Node → VisitOut
| .builtinN nm args _ =>
  if nm = "map" then
    match args with
    | [.builtinN inner (s :: p :: _) _, m] =>
      if inner = "filter" then .patchN (.builtinN "filterMap" [s, p, m] none) else .keep
    | _ => .keep
  else .keep
| _ => .keep

/-- Modelled from the spec: the filterLen pass (spec section 4.6). -/
def filterLenVisit : Node → VisitOut
| .builtinN nm args _ =>
  if nm = "len" then
    match args with
    | [.builtinN inner (s :: p :: _) _] =>
      if inner = "filter" then .patchN (.builtinN "filterLen" [s, p] none) else .keep
    | _ => .keep
  else .keep
| _ => .keep

/-- Modelled from the spec: the filterLast pass (spec section 4.6). -/
def filterLastVisit : Node → VisitOut
| .builtinN nm args _ =>
  if nm = "last" then
    match args with
    | [.builtinN inner (s :: p :: _) _] =>
      if inner = "filter" then .patchN (.builtinN "filterLast" [s, p] none) else .keep
    | _ => .keep
  else .keep
| _ => .keep

/-- Modelled from the spec: the filterFirst pass (spec section 4.6). -/
def filterFirstVisit : Node → VisitOut
| .builtinN nm args _ =>
  if nm = "first" then
    match args with
    | [.builtinN inner (s :: p :: _) _] =>
      if inner = "filter" then .patchN (.builtinN "filterFirst" [s, p] none) else .keep
    | _ => .keep
  else .keep
| _ => .keep

/-! ## Optimizer driver (optimizer.go)  -/

/-- optimizer.Optimize: inArray once; fold to fixpoint (first error aborts);
constExpr to fixpoint when pure functions are configured (first error
aborts); then the single-pass specializations. -/
def Optimize (node : Node) (config : Config) : Except OptError Node :=
  let n0 := (walkV inArrayVisit node initSt).1
  match foldLoop 1001 n0 with
  | .error e => .error e
  | .ok n1 =>
    let step2 : Except OptError Node :=
      if config.constFns.length > 0 then constLoop 101 config.constFns n1 else .ok n1
    match step2 with
    | .error e => .error e
    | .ok n2 =>
      let n3 := (walkV inRangeVisit n2 initSt).1
      let n4 := (walkV constRangeVisit n3 initSt).1
      let n5 := (walkV filterMapVisit n4 initSt).1
      let n6 := (walkV filterLenVisit n5 initSt).1
      let n7 := (walkV filterLastVisit n6 initSt).1
      let n8 := (walkV filterFirstVisit n7 initSt).1
      .ok n8

end OExpr

namespace OExpr

/-! ## Walker lemmas

A walk whose final applied flag is false performed no patch anywhere, so it
returns its input tree unchanged (and the flag was already false on entry).
Used for the fold-fixpoint facts below.
-/

set_option maxHeartbeats 2000000

mutual

theorem walkV_keep (v : Node → VisitOut) (n : Node) (s : WalkSt)
    (h : ((walkV v n s).2).applied = false) :
    (walkV v n s).1 = n ∧ s.applied = false := by
  rw [walkV.eq_1] at h ⊢
  cases hv : v n with
  | patchN n2 =>
    rw [hv] at h
    dsimp only at h
    exact Bool.noConfusion h
  | keep =>
    rw [hv] at h
    dsimp only at h ⊢
    cases n with
    | nilN l => exact ⟨rfl, h⟩
    | boolN b l => exact ⟨rfl, h⟩
    | integerN i l => exact ⟨rfl, h⟩
    | floatN f l => exact ⟨rfl, h⟩
    | stringN v2 l => exact ⟨rfl, h⟩
    | constantN v2 l => exact ⟨rfl, h⟩
    | identifierN nm l => exact ⟨rfl, h⟩
    | pointerN nm l => exact ⟨rfl, h⟩
    | unaryN op c l =>
      have ih := walkV_keep v c s h
      exact ⟨by dsimp only; rw [ih.1], ih.2⟩
    | binaryN op a b l =>
      have ihb := walkV_keep v b (walkV v a s).2 h
      have iha := walkV_keep v a s ihb.2
      exact ⟨by dsimp only; rw [iha.1, ihb.1], iha.2⟩
    | arrayN ns l =>
      have ih := walkVL_keep v ns s h
      exact ⟨by dsimp only; rw [ih.1], ih.2⟩
    | mapN ps l =>
      have ih := walkVL_keep v ps s h
      exact ⟨by dsimp only; rw [ih.1], ih.2⟩
    | pairN k w l =>
      have ihw := walkV_keep v w (walkV v k s).2 h
      have ihk := walkV_keep v k s ihw.2
      exact ⟨by dsimp only; rw [ihk.1, ihw.1], ihk.2⟩
    | memberN nd p o l =>
      have ihp := walkV_keep v p (walkV v nd s).2 h
      have ihn := walkV_keep v nd s ihp.2
      exact ⟨by dsimp only; rw [ihn.1, ihp.1], ihn.2⟩
    | chainN nd l =>
      have ih := walkV_keep v nd s h
      exact ⟨by dsimp only; rw [ih.1], ih.2⟩
    | sliceN nd f t l =>
      have iht := walkVO_keep v t (walkVO v f (walkV v nd s).2).2 h
      have ihf := walkVO_keep v f (walkV v nd s).2 iht.2
      have ihn := walkV_keep v nd s ihf.2
      exact ⟨by dsimp only; rw [ihn.1, ihf.1, iht.1], ihn.2⟩
    | callN c as l =>
      have iha := walkVL_keep v as (walkV v c s).2 h
      have ihc := walkV_keep v c s iha.2
      exact ⟨by dsimp only; rw [ihc.1, iha.1], ihc.2⟩
    | builtinN nm as l =>
      have ih := walkVL_keep v as s h
      exact ⟨by dsimp only; rw [ih.1], ih.2⟩
    | closureN nd l =>
      have ih := walkV_keep v nd s h
      exact ⟨by dsimp only; rw [ih.1], ih.2⟩
    | conditionalN c e1 e2 l =>
      have ih2 := walkV_keep v e2 (walkV v e1 (walkV v c s).2).2 h
      have ih1 := walkV_keep v e1 (walkV v c s).2 ih2.2
      have ihc := walkV_keep v c s ih1.2
      exact ⟨by dsimp only; rw [ihc.1, ih1.1, ih2.1], ihc.2⟩
    | variableDeclaratorN nm vl ex l =>
      have ihe := walkV_keep v ex (walkV v vl s).2 h
      have ihv := walkV_keep v vl s ihe.2
      exact ⟨by dsimp only; rw [ihv.1, ihe.1], ihv.2⟩
  | failE e =>
    rw [hv] at h
    dsimp only at h ⊢
    cases n with
    | nilN l => exact ⟨rfl, h⟩
    | boolN b l => exact ⟨rfl, h⟩
    | integerN i l => exact ⟨rfl, h⟩
    | floatN f l => exact ⟨rfl, h⟩
    | stringN v2 l => exact ⟨rfl, h⟩
    | constantN v2 l => exact ⟨rfl, h⟩
    | identifierN nm l => exact ⟨rfl, h⟩
    | pointerN nm l => exact ⟨rfl, h⟩
    | unaryN op c l =>
      have ih := walkV_keep v c { s with err := some e } h
      exact ⟨by dsimp only; rw [ih.1], ih.2⟩
    | binaryN op a b l =>
      have ihb := walkV_keep v b (walkV v a { s with err := some e }).2 h
      have iha := walkV_keep v a { s with err := some e } ihb.2
      exact ⟨by dsimp only; rw [iha.1, ihb.1], iha.2⟩
    | arrayN ns l =>
      have ih := walkVL_keep v ns { s with err := some e } h
      exact ⟨by dsimp only; rw [ih.1], ih.2⟩
    | mapN ps l =>
      have ih := walkVL_keep v ps { s with err := some e } h
      exact ⟨by dsimp only; rw [ih.1], ih.2⟩
    | pairN k w l =>
      have ihw := walkV_keep v w (walkV v k { s with err := some e }).2 h
      have ihk := walkV_keep v k { s with err := some e } ihw.2
      exact ⟨by dsimp only; rw [ihk.1, ihw.1], ihk.2⟩
    | memberN nd p o l =>
      have ihp := walkV_keep v p (walkV v nd { s with err := some e }).2 h
      have ihn := walkV_keep v nd { s with err := some e } ihp.2
      exact ⟨by dsimp only; rw [ihn.1, ihp.1], ihn.2⟩
    | chainN nd l =>
      have ih := walkV_keep v nd { s with err := some e } h
      exact ⟨by dsimp only; rw [ih.1], ih.2⟩
    | sliceN nd f t l =>
      have iht := walkVO_keep v t (walkVO v f (walkV v nd { s with err := some e }).2).2 h
      have ihf := walkVO_keep v f (walkV v nd { s with err := some e }).2 iht.2
      have ihn := walkV_keep v nd { s with err := some e } ihf.2
      exact ⟨by dsimp only; rw [ihn.1, ihf.1, iht.1], ihn.2⟩
    | callN c as l =>
      have iha := walkVL_keep v as (walkV v c { s with err := some e }).2 h
      have ihc := walkV_keep v c { s with err := some e } iha.2
      exact ⟨by dsimp only; rw [ihc.1, iha.1], ihc.2⟩
    | builtinN nm as l =>
      have ih := walkVL_keep v as { s with err := some e } h
      exact ⟨by dsimp only; rw [ih.1], ih.2⟩
    | closureN nd l =>
      have ih := walkV_keep v nd { s with err := some e } h
      exact ⟨by dsimp only; rw [ih.1], ih.2⟩
    | conditionalN c e1 e2 l =>
      have ih2 := walkV_keep v e2 (walkV v e1 (walkV v c { s with err := some e }).2).2 h
      have ih1 := walkV_keep v e1 (walkV v c { s with err := some e }).2 ih2.2
      have ihc := walkV_keep v c { s with err := some e } ih1.2
      exact ⟨by dsimp only; rw [ihc.1, ih1.1, ih2.1], ihc.2⟩
    | variableDeclaratorN nm vl ex l =>
      have ihe := walkV_keep v ex (walkV v vl { s with err := some e }).2 h
      have ihv := walkV_keep v vl { s with err := some e } ihe.2
      exact ⟨by dsimp only; rw [ihv.1, ihe.1], ihv.2⟩
termination_by sizeOf n

theorem walkVL_keep (v : Node → VisitOut) (ns : List Node) (s : WalkSt)
    (h : ((walkVL v ns s).2).applied = false) :
    (walkVL v ns s).1 = ns ∧ s.applied = false := by
  cases ns with
  | nil => exact ⟨rfl, by rw [walkVL] at h; exact h⟩
  | cons n rest =>
    rw [walkVL] at h ⊢
    have ihr := walkVL_keep v rest (walkV v n s).2 h
    have ihn := walkV_keep v n s ihr.2
    exact ⟨by dsimp only; rw [ihn.1, ihr.1], ihn.2⟩
termination_by sizeOf ns

theorem walkVO_keep (v : Node → VisitOut) (o : Option Node) (s : WalkSt)
    (h : ((walkVO v o s).2).applied = false) :
    (walkVO v o s).1 = o ∧ s.applied = false := by
  cases o with
  | none => exact ⟨rfl, by rw [walkVO] at h; exact h⟩
  | some n =>
    rw [walkVO] at h ⊢
    have ih := walkV_keep v n s h
    exact ⟨by dsimp only; rw [ih.1], ih.2⟩
termination_by sizeOf o

end

end OExpr

namespace OExpr

/-- A fold walk that records an error makes the driver's fold loop abort
with that error (optimizer.go lines 10-15). -/
theorem foldLoop1001_err (n : Node) (e : OptError)
    (h : ((walkV foldVisit n initSt).2).err = some e) : foldLoop 1001 n = .error e := by
  rw [show (1001 : Nat) = 1000 + 1 from rfl, foldLoop]
  simp only [h]

/-- A fold walk that neither patches nor errors makes the driver's fold loop
return the tree unchanged. -/
theorem foldLoop1001_id (n : Node)
    (h : (walkV foldVisit n initSt).2 = initSt) : foldLoop 1001 n = .ok n := by
  have hk := walkV_keep foldVisit n initSt (by rw [h]; rfl)
  rw [show (1001 : Nat) = 1000 + 1 from rfl, foldLoop]
  simp only [h, hk.1]
  rfl

/-- A constExpr walk that records an error makes the driver's constExpr loop
abort with that error (optimizer.go lines 20-33). -/
theorem constLoop101_err (fns : List (String × ConstFn)) (n : Node) (e : OptError)
    (h : ((walkV (constExprVisit fns) n initSt).2).err = some e) :
    constLoop 101 fns n = .error e := by
  rw [show (101 : Nat) = 100 + 1 from rfl, constLoop]
  simp only [h]



/-! ## Decidable equality for values and nodes

The nested list and option fields keep the standard derive handler from
producing these instances, so the boolean comparisons and their
characterizations are spelled out; they exist only so that concrete
parser and optimizer runs can be settled by decide.
-/

mutual

def Value.beq : Value → Value → Bool
| .vnil, .vnil => true
| .vint a, .vint b => a == b
| .vfloat a, .vfloat b => a == b
| .vbool a, .vbool b => a == b
| .vstring a, .vstring b => a == b
| .vlist a, .vlist b => Value.beqL a b
| _, _ => false
termination_by structural v => v

def Value.beqL : List Value → List Value → Bool
| [], [] => true
| a :: as2, b :: bs => Value.beq a b && Value.beqL as2 bs
| _, _ => false
termination_by structural vs => vs

end

mutual

theorem Value.vbeqIffEq : ∀ a b : Value, Value.beq a b = true ↔ a = b := by
  intro a b
  cases a <;> cases b <;> simp [Value.beq]
  case vlist.vlist as2 bs => exact Value.vbeqLIffEq as2 bs
termination_by a => sizeOf a

theorem Value.vbeqLIffEq : ∀ a b : List Value, Value.beqL a b = true ↔ a = b := by
  intro a b
  cases a <;> cases b <;> simp [Value.beqL]
  case cons.cons x as2 y bs =>
    rw [Value.vbeqIffEq x y, Value.vbeqLIffEq as2 bs]
termination_by a => sizeOf a

end

instance : DecidableEq Value := fun a b => decidable_of_iff _ (Value.vbeqIffEq a b)

mutual

def Node.beq : Node → Node → Bool
| .nilN l1, .nilN l2 => l1 == l2
| .boolN a l1, .boolN b l2 => a == b && l1 == l2
| .integerN a l1, .integerN b l2 => a == b && l1 == l2
| .floatN a l1, .floatN b l2 => a == b && l1 == l2
| .stringN a l1, .stringN b l2 => a == b && l1 == l2
| .constantN a l1, .constantN b l2 => Value.beq a b && l1 == l2
| .identifierN a l1, .identifierN b l2 => a == b && l1 == l2
| .unaryN o1 n1 l1, .unaryN o2 n2 l2 => o1 == o2 && Node.beq n1 n2 && l1 == l2
| .binaryN o1 a1 b1 l1, .binaryN o2 a2 b2 l2 =>
  o1 == o2 && Node.beq a1 a2 && Node.beq b1 b2 && l1 == l2
| .arrayN ns1 l1, .arrayN ns2 l2 => Node.beqL ns1 ns2 && l1 == l2
| .mapN ps1 l1, .mapN ps2 l2 => Node.beqL ps1 ps2 && l1 == l2
| .pairN k1 v1 l1, .pairN k2 v2 l2 => Node.beq k1 k2 && Node.beq v1 v2 && l1 == l2
| .memberN n1 p1 o1 l1, .memberN n2 p2 o2 l2 =>
  Node.beq n1 n2 && Node.beq p1 p2 && o1 == o2 && l1 == l2
| .chainN n1 l1, .chainN n2 l2 => Node.beq n1 n2 && l1 == l2
| .sliceN n1 f1 t1 l1, .sliceN n2 f2 t2 l2 =>
  Node.beq n1 n2 && Node.beqO f1 f2 && Node.beqO t1 t2 && l1 == l2
| .callN c1 a1 l1, .callN c2 a2 l2 => Node.beq c1 c2 && Node.beqL a1 a2 && l1 == l2
| .builtinN m1 a1 l1, .builtinN m2 a2 l2 => m1 == m2 && Node.beqL a1 a2 && l1 == l2
| .closureN n1 l1, .closureN n2 l2 => Node.beq n1 n2 && l1 == l2
| .pointerN m1 l1, .pointerN m2 l2 => m1 == m2 && l1 == l2
| .conditionalN c1 x1 y1 l1, .conditionalN c2 x2 y2 l2 =>
  Node.beq c1 c2 && Node.beq x1 x2 && Node.beq y1 y2 && l1 == l2
| .variableDeclaratorN m1 v1 e1 l1, .variableDeclaratorN m2 v2 e2 l2 =>
  m1 == m2 && Node.beq v1 v2 && Node.beq e1 e2 && l1 == l2
| _, _ => false
termination_by structural n => n

def Node.beqL : List Node → List Node → Bool
| [], [] => true
| a :: as2, b :: bs => Node.beq a b && Node.beqL as2 bs
| _, _ => false
termination_by structural ns => ns

def Node.beqO : Option Node → Option Node → Bool
| none, none => true
| some a, some b => Node.beq a b
| _, _ => false
termination_by structural o => o

end

set_option maxHeartbeats 4000000 in
mutual

theorem Node.nbeqIffEq : ∀ a b : Node, Node.beq a b = true ↔ a = b := by
  intro a b
  cases a <;> cases b <;> simp [Node.beq]
  case unaryN.unaryN o1 n1 l1 o2 n2 l2 => rw [Node.nbeqIffEq n1 n2]; tauto
  case binaryN.binaryN o1 a1 b1 l1 o2 a2 b2 l2 =>
    rw [Node.nbeqIffEq a1 a2, Node.nbeqIffEq b1 b2]; tauto
  case arrayN.arrayN ns1 l1 ns2 l2 => rw [Node.nbeqLIffEq ns1 ns2]; tauto
  case mapN.mapN ps1 l1 ps2 l2 => rw [Node.nbeqLIffEq ps1 ps2]; tauto
  case pairN.pairN k1 v1 l1 k2 v2 l2 =>
    rw [Node.nbeqIffEq k1 k2, Node.nbeqIffEq v1 v2]; tauto
  case memberN.memberN n1 p1 o1 l1 n2 p2 o2 l2 =>
    rw [Node.nbeqIffEq n1 n2, Node.nbeqIffEq p1 p2]; tauto
  case chainN.chainN n1 l1 n2 l2 => rw [Node.nbeqIffEq n1 n2]; tauto
  case sliceN.sliceN n1 f1 t1 l1 n2 f2 t2 l2 =>
    rw [Node.nbeqIffEq n1 n2, Node.nbeqOIffEq f1 f2, Node.nbeqOIffEq t1 t2]; tauto
  case callN.callN c1 a1 l1 c2 a2 l2 =>
    rw [Node.nbeqIffEq c1 c2, Node.nbeqLIffEq a1 a2]; tauto
  case builtinN.builtinN m1 a1 l1 m2 a2 l2 => rw [Node.nbeqLIffEq a1 a2]; tauto
  case closureN.closureN n1 l1 n2 l2 => rw [Node.nbeqIffEq n1 n2]; tauto
  case conditionalN.conditionalN c1 x1 y1 l1 c2 x2 y2 l2 =>
    rw [Node.nbeqIffEq c1 c2, Node.nbeqIffEq x1 x2, Node.nbeqIffEq y1 y2]; tauto
  case variableDeclaratorN.variableDeclaratorN m1 v1 e1 l1 m2 v2 e2 l2 =>
    rw [Node.nbeqIffEq v1 v2, Node.nbeqIffEq e1 e2]; tauto
  case constantN.constantN a l1 b l2 => rw [Value.vbeqIffEq a b]; tauto
termination_by a => sizeOf a

theorem Node.nbeqLIffEq : ∀ a b : List Node, Node.beqL a b = true ↔ a = b := by
  intro a b
  cases a <;> cases b <;> simp [Node.beqL]
  case cons.cons x as2 y bs => rw [Node.nbeqIffEq x y, Node.nbeqLIffEq as2 bs]
termination_by a => sizeOf a

theorem Node.nbeqOIffEq : ∀ a b : Option Node, Node.beqO a b = true ↔ a = b := by
  intro a b
  cases a <;> cases b <;> simp [Node.beqO]
  case some.some x y => exact Node.nbeqIffEq x y
termination_by a => sizeOf a

end

instance : DecidableEq Node := fun a b => decidable_of_iff _ (Node.nbeqIffEq a b)


instance {e a : Type} [DecidableEq e] [DecidableEq a] : DecidableEq (Except e a) :=
  fun x y =>
    match x, y with
    | .error x1, .error y1 =>
      if h : x1 = y1 then isTrue (by rw [h]) else isFalse (by simp [h])
    | .ok x1, .ok y1 =>
      if h : x1 = y1 then isTrue (by rw [h]) else isFalse (by simp [h])
    | .error _, .ok _ => isFalse (by simp)
    | .ok _, .error _ => isFalse (by simp)

/-! ## Concrete token streams and claim-level helpers  -/

/-- Identifier token, as produced by the lexer (external, spec section 6). -/
def idTok (v : String) (l : Pos) : Token := ⟨.identifier, v, l⟩

def opTok (v : String) (l : Pos) : Token := ⟨.operator, v, l⟩

def brTok (v : String) (l : Pos) : Token := ⟨.bracket, v, l⟩

def numTok (v : String) (l : Pos) : Token := ⟨.number, v, l⟩

def eofTok (l : Pos) : Token := ⟨.eof, "", l⟩

def Node.isBoolLit : Node → Bool
| .boolN _ _ => true
| _ => false

def Node.isCall : Node → Bool
| .callN _ _ _ => true
| _ => false

def Node.isConstant : Node → Bool
| .constantN _ _ => true
| _ => false

/-- Whether an optimizer error value carries a source location (a located
file.Error does; a plain error value does not). -/
def errHasLocation : OptError → Bool
| .located _ => true
| .raw _ => false

/-- The token stream the lexer yields for the source "true && (1 < 2)". -/
def c1Tokens : List Token :=
  [idTok "true" 0, opTok "&&" 5, brTok "(" 8, numTok "1" 9, opTok "<" 11,
   numTok "2" 13, brTok ")" 14, eofTok 15]

def c1Parsed : Node :=
  .binaryN "&&" (.boolN true (some 0))
    (.binaryN "<" (.integerN 1 (some 9)) (.integerN 2 (some 13)) (some 11)) (some 5)

def c1Folded : Node :=
  .binaryN "<" (.integerN 1 (some 9)) (.integerN 2 (some 13)) (some 11)

/-- C1 (counterexample): parsing "true && (1 < 2)" succeeds, but running the
fold pass to its fixpoint yields the comparison node 1 < 2, which is not a
bool literal: the true-and identity fires, while the fold pass has no rule
for the operator < on literals, so the claimed result Bool(true) is not
produced. -/
theorem c1_counterexample :
    parseTokens c1Tokens = .ok c1Parsed ∧
    foldLoop 1001 c1Parsed = .ok c1Folded ∧
    c1Folded.isBoolLit = false := by decide

/-- C1 (amended): for the input "true && (1 < 2)", Parse succeeds and the
fold fixpoint reduces the expression to the Binary node 1 < 2 (the left
conjunct true is eliminated by the short-circuit identity; the comparison
itself is never folded, matching the source's ==-only folding asymmetry). -/
theorem c1_fold_result :
    parseTokens c1Tokens = .ok c1Parsed ∧ foldLoop 1001 c1Parsed = .ok c1Folded := by
  decide

def c2Tree : Node :=
  .builtinN "filter"
    [.builtinN "filter" [.identifierN "s" (some 0), .boolN true (some 1)] (some 2),
     .boolN false (some 3)] (some 4)

/-- C2 (counterexample): on filter(filter(s, true), false) one complete fold
walk reports no error (it fuses the filters, synthesizing the conjunction
true && false), yet a second fold walk patches again (it folds that fresh
conjunction), so a single error-free walk is not idempotent. -/
theorem c2_counterexample :
    (walkV foldVisit c2Tree initSt).2 = ⟨true, none⟩ ∧
    ((walkV foldVisit ((walkV foldVisit c2Tree initSt).1) initSt).2).applied = true :=
  ⟨rfl, rfl⟩

/-- C2 (amended): a fold walk that performs no patch returns its input
unchanged, so once a walk reports applied = false — the driver's fixpoint
condition — every further fold walk also performs no patch.  A single
error-free walk that did patch may still enable further patches (see the
counterexample), which is why the driver loops walks to a fixpoint. -/
theorem c2_no_patch_stable (t : Node)
    (h : ((walkV foldVisit t initSt).2).applied = false) :
    (walkV foldVisit t initSt).1 = t ∧
    ((walkV foldVisit ((walkV foldVisit t initSt).1) initSt).2).applied = false := by
  have hk := walkV_keep foldVisit t initSt h
  exact ⟨hk.1, by rw [hk.1]; exact h⟩

theorem c2_no_patch_stable_witness :
    ((walkV foldVisit (.integerN 1 (some 0)) initSt).2).applied = false ∧
    ((walkV foldVisit (.integerN 1 (some 0)) initSt).1 = .integerN 1 (some 0) ∧
      ((walkV foldVisit ((walkV foldVisit (.integerN 1 (some 0)) initSt).1) initSt).2).applied
        = false) :=
  ⟨rfl, c2_no_patch_stable (.integerN 1 (some 0)) rfl⟩

/-- C5 (confirmed): visiting a % node with integer-literal operands and
literal zero divisor records exactly the error "integer divide by zero" at
that node's location and performs no patch on it, and Optimize aborts with
that error, running no further pass. -/
theorem c5_mod_zero (a : Int) (la lb lo : Option Pos) (cfg : Config) :
    foldVisit (.binaryN "%" (.integerN a la) (.integerN 0 lb) lo)
      = .failE (.located ⟨lo, "integer divide by zero"⟩) ∧
    Optimize (.binaryN "%" (.integerN a la) (.integerN 0 lb) lo) cfg
      = .error (.located ⟨lo, "integer divide by zero"⟩) := by
  refine ⟨by simp [foldVisit, foldBinary, foldMod], ?_⟩
  have hin : walkV inArrayVisit (.binaryN "%" (.integerN a la) (.integerN 0 lb) lo) initSt
      = (.binaryN "%" (.integerN a la) (.integerN 0 lb) lo, initSt) := by
    simp [walkV, inArrayVisit]
  have hfold : ((walkV foldVisit (.binaryN "%" (.integerN a la) (.integerN 0 lb) lo)
      initSt).2).err = some (.located ⟨lo, "integer divide by zero"⟩) := by
    simp [walkV, foldVisit, foldBinary, foldMod, initSt]
  have hrun := foldLoop1001_err _ _ hfold
  simp [Optimize, hin, hrun]

/-- C7 (confirmed): the fold pass rewrites filter(filter(src, P), Q), where
the outer filter has exactly two arguments and the first is itself a filter
builtin, into the single builtin filter(src, P && Q); the replacement
inherits the outer node's location and the walker does not recurse into it
within the same pass. -/
theorem c7_filter_fusion (s p q : Node) (li lo : Option Pos) :
    walkV foldVisit (.builtinN "filter" [.builtinN "filter" [s, p] li, q] lo) initSt
      = (.builtinN "filter" [s, .binaryN "&&" p q none] lo, ⟨true, none⟩) := by
  rw [walkV.eq_1]
  simp [foldVisit, foldBuiltin, patchNode, Node.loc, Node.setLoc, initSt]

/-- C8 (counterexample): the fold pass leaves the empty array literal
untouched (fold.go line 279 requires a non-empty element list), so the
all-literal array with zero elements is not replaced by a Constant node. -/
theorem c8_counterexample :
    walkV foldVisit (.arrayN [] (some 0)) initSt = (.arrayN [] (some 0), ⟨false, none⟩) ∧
    (Node.arrayN [] (some 0)).isConstant = false := ⟨rfl, rfl⟩

/-- C8 (amended): every non-empty array literal all of whose elements are
bool, integer, float or string literals is replaced by a single Constant
node holding the element values in order (inheriting the array's location);
the empty array is excluded. -/
theorem c8_nonempty_array_folds (ns : List Node) (l : Option Pos)
    (h1 : ns ≠ []) (h2 : ns.all scalarLit = true) :
    walkV foldVisit (.arrayN ns l) initSt
      = (.constantN (.vlist (ns.map litVal)) l, ⟨true, none⟩) := by
  rw [walkV.eq_1]
  cases ns with
  | nil => exact absurd rfl h1
  | cons n rest => simp [foldVisit, foldArray, h2, patchNode, Node.loc, Node.setLoc, initSt]

theorem c8_nonempty_array_folds_witness :
    ([Node.integerN 1 (some 3)] ≠ []) ∧
    ([Node.integerN 1 (some 3)].all scalarLit = true) ∧
    walkV foldVisit (.arrayN [Node.integerN 1 (some 3)] (some 0)) initSt
      = (.constantN (.vlist [.vint 1]) (some 0), ⟨true, none⟩) :=
  ⟨by simp, rfl, c8_nonempty_array_folds [Node.integerN 1 (some 3)] (some 0) (by simp) rfl⟩

end OExpr

namespace OExpr

/-- The token stream for "a ?? b | foo()". -/
def c3PipeTokens : List Token :=
  [idTok "a" 0, opTok "??" 2, idTok "b" 5, opTok "|" 7, idTok "foo" 9,
   brTok "(" 12, brTok ")" 13, eofTok 14]

/-- The token stream for "a ?? b OP c". -/
def c3Tokens (op : String) : List Token :=
  [idTok "a" 0, opTok "??" 2, idTok "b" 5, opTok op 7, idTok "c" 9, eofTok 11]

/-- C3 (counterexample): the pipe operator is a binary operator other than
the coalesce operator, yet "a ?? b | foo()" parses without any error: the
parser desugars the pipe before the mixing check is reached
(parser.go lines 145-152), so the universally claimed mixing error is not
raised for OP = pipe. -/
theorem c3_counterexample :
    ("|" ∈ binaryOpsTable.map Prod.fst) ∧
    parseTokens c3PipeTokens
      = .ok (.callN (.identifierN "foo" (some 9))
          [.binaryN "??" (.identifierN "a" (some 0)) (.identifierN "b" (some 5)) (some 2)]
          (some 9)) := by decide

/-- C3 (amended): for every binary operator OP other than the coalesce
operator and other than the pipe operator, parsing "a ?? b OP c" with the
part after ?? unparenthesized records exactly the mixing error, at the OP
token, regardless of OP's precedence; the pipe operator is instead desugared
into a call with the coalesce expression as first argument. -/
theorem c3_mixing_error (op : String)
    (h1 : op ∈ binaryOpsTable.map Prod.fst) (h2 : op ≠ "??") (h3 : op ≠ "|") :
    parseTokens (c3Tokens op) = .error ⟨some 7, mixingMsg op⟩ := by
  simp [binaryOpsTable] at h1
  rcases h1 with rfl | rfl | rfl | rfl | rfl | rfl | rfl | rfl | rfl | rfl | rfl | rfl |
    rfl | rfl | rfl | rfl | rfl | rfl | rfl | rfl | rfl | rfl | rfl | rfl | rfl <;>
    first
    | exact absurd rfl h3
    | exact absurd rfl h2
    | decide

theorem c3_mixing_error_witness :
    ("&&" ∈ binaryOpsTable.map Prod.fst) ∧ ("&&" ≠ "??") ∧ ("&&" ≠ "|") ∧
    parseTokens (c3Tokens "&&") = .error ⟨some 7, mixingMsg "&&"⟩ :=
  ⟨by decide, by decide, by decide,
   c3_mixing_error "&&" (by decide) (by decide) (by decide)⟩

/-- C4 (counterexample): the decimal token 9223372036854775808 has value
MaxInt64 + 1, yet the recorded error is the ParseInt range failure message,
not "integer literal is too large": ParseInt fails first and the sticky
first-error slot keeps its message, and the clamped value MaxInt64 is not
greater than the 64-bit platform MaxInt, so the too-large branch never
fires. -/
theorem c4_counterexample :
    parseTokens [numTok "9223372036854775808" 0, eofTok 19]
      = .error ⟨some 19, "invalid integer literal: value out of range"⟩ ∧
    ("invalid integer literal: value out of range" ≠ "integer literal is too large") := by
  decide

/-- C4 (amended): on a 64-bit platform, for every decimal (non-hex,
non-float) number token whose numeric value exceeds MaxInt64, the parser
records exactly the error "invalid integer literal: value out of range"
(strconv.ParseInt's range failure, kept by the sticky first-error slot);
the message "integer literal is too large" is unreachable for such tokens
because ParseInt clamps the returned value to MaxInt64, which is not greater
than the platform MaxInt. -/
theorem c4_decimal_range_error (fuel : Nat) (s : String) (n : Nat) (cfg : Config)
    (hx : strContains (stripUnders s) 'x' = false)
    (hd : strContains (stripUnders s) '.' = false)
    (he : strContains (stripUnders s) 'e' = false)
    (hE : strContains (stripUnders s) 'E' = false)
    (hn : decNat (stripUnders s) = some n)
    (hbig : (n : Int) > maxInt) :
    ((parseSecondary (fuel + 1)
        ⟨[⟨.number, s, 0⟩, ⟨.eof, "", 1⟩], 0, ⟨.number, s, 0⟩, none, 0, cfg⟩).2).err
      = some ⟨some 1, "invalid integer literal: value out of range"⟩ := by
  have hmax : ¬(maxInt > maxInt) := lt_irrefl maxInt
  simp only [parseSecondary]
  simp [pnext, perror, perrorAt, hx, hd, he, hE, parseInt10, hn, hbig, hmax, ierrMsg,
    Token.is]

theorem c4_decimal_range_error_witness :
    (strContains (stripUnders "9223372036854775808") 'x' = false) ∧
    (decNat (stripUnders "9223372036854775808") = some 9223372036854775808) ∧
    ((9223372036854775808 : Nat) : Int) > maxInt ∧
    ((parseSecondary 1
        ⟨[⟨.number, "9223372036854775808", 0⟩, ⟨.eof, "", 1⟩], 0,
          ⟨.number, "9223372036854775808", 0⟩, none, 0, defaultConfig⟩).2).err
      = some ⟨some 1, "invalid integer literal: value out of range"⟩ :=
  ⟨by decide, by decide, by decide,
   c4_decimal_range_error 0 "9223372036854775808" 9223372036854775808 defaultConfig
     (by decide) (by decide) (by decide) (by decide) (by decide) (by decide)⟩

def c6Fn : ConstFn := fun _ => .pairOut .vnil (some "boom")

def c6Tree : Node := .callN (.identifierN "f" (some 0)) [] (some 0)

def c6Config : Config := ⟨[], [("f", c6Fn)]⟩

/-- C6 (counterexample): a registered pure function invoked on all-literal
arguments that returns a non-nil error makes Optimize return that error
value unchanged; the returned error is the function's plain error value,
which carries no location at all, hence not the call node's location
(const_expr.go line 77 stores the error as-is, unlike the recover path). -/
theorem c6_counterexample :
    Optimize c6Tree c6Config = .error (.raw "boom") ∧
    errHasLocation (.raw "boom") = false := by decide

/-- C6 (amended): whenever constExpr invokes a registered pure function on
all-literal arguments and it returns a value-and-error pair with non-nil
error, the pass aborts and Optimize returns exactly that error value,
unchanged and with no location attached; only the panic-recovery path
produces an error located at the call node. -/
theorem c6_error_passthrough (name : String) (ln lc la : Option Pos) (k : Int)
    (f : ConstFn) (v : Value) (e : String) (disabled : List String)
    (hf : f [.vint k] = .pairOut v (some e)) :
    Optimize (.callN (.identifierN name ln) [.integerN k la] lc) ⟨disabled, [(name, f)]⟩
      = .error (.raw e) := by
  have hin : walkV inArrayVisit (.callN (.identifierN name ln) [.integerN k la] lc) initSt
      = (.callN (.identifierN name ln) [.integerN k la] lc, initSt) := by
    simp [walkV, walkVL, inArrayVisit]
  have hfold : (walkV foldVisit (.callN (.identifierN name ln) [.integerN k la] lc)
      initSt).2 = initSt := by
    simp [walkV, walkVL, foldVisit]
  have hloop := foldLoop1001_id _ hfold
  have hconst : ((walkV (constExprVisit [(name, f)])
      (.callN (.identifierN name ln) [.integerN k la] lc) initSt).2).err
      = some (.raw e) := by
    simp [walkV, walkVL, constExprVisit, lookupStr, literalParams, literalParam, hf]
  have hcrun := constLoop101_err _ _ _ hconst
  simp [Optimize, hin, hloop, hcrun]

theorem c6_error_passthrough_witness :
    (c6Fn [.vint 1] = .pairOut .vnil (some "boom")) ∧
    Optimize (.callN (.identifierN "g" (some 0)) [.integerN 1 (some 2)] (some 0))
        ⟨[], [("g", c6Fn)]⟩
      = .error (.raw "boom") :=
  ⟨rfl, c6_error_passthrough "g" (some 0) (some 0) (some 2) 1 c6Fn .vnil "boom" [] rfl⟩

/-- The token stream for "filter(x, #)" in call position. -/
def c9FilterTokens : List Token :=
  [idTok "filter" 0, brTok "(" 6, idTok "x" 7, opTok "," 8, opTok "#" 10,
   brTok ")" 11, eofTok 12]

/-- C9 (counterexample): filter is present in the builtin index yet is a
predicate builtin, and the predicate table is consulted before the disabled
set (parser.go line 367), so even with filter in the disabled set the call
position filter(x, #) still yields a Builtin node, not a Call node with an
Identifier callee. -/
theorem c9_counterexample :
    ("filter" ∈ builtinIndexNames) ∧
    parseWithConfig c9FilterTokens ⟨["filter"], []⟩
      = .ok (.builtinN "filter"
          [.identifierN "x" (some 7), .closureN (.pointerN "" (some 10)) (some 10)]
          (some 0)) ∧
    (Node.isCall (.builtinN "filter"
        [.identifierN "x" (some 7), .closureN (.pointerN "" (some 10)) (some 10)]
        (some 0)) = false) := by decide

/-- C9 (amended): for every builtin-index name that is not a predicate
builtin and is listed in the disabled set, call position f() yields a Call
node with an Identifier callee while pipe position x | f() still yields a
Builtin node (parsePipe never consults the disabled set); predicate names
are routed by the predicate table before either index lookup, so they are
never hidden. -/
theorem c9_disabled_asymmetry (name : String)
    (h1 : name ∈ builtinIndexNames) (h2 : predicateArity name = none) :
    parseWithConfig [idTok name 0, brTok "(" 1, brTok ")" 2, eofTok 3] ⟨[name], []⟩
      = .ok (.callN (.identifierN name (some 0)) [] (some 0)) ∧
    parseWithConfig
        [idTok "x" 0, opTok "|" 2, idTok name 4, brTok "(" 5, brTok ")" 6, eofTok 7]
        ⟨[name], []⟩
      = .ok (.builtinN name [.identifierN "x" (some 0)] (some 4)) := by
  simp [builtinIndexNames] at h1
  rcases h1 with rfl | rfl | rfl | rfl
  · exact ⟨by decide, by decide⟩
  · exact absurd h2 (by decide)
  · exact absurd h2 (by decide)
  · exact ⟨by decide, by decide⟩

theorem c9_disabled_asymmetry_witness :
    ("len" ∈ builtinIndexNames) ∧ (predicateArity "len" = none) ∧
    (parseWithConfig [idTok "len" 0, brTok "(" 1, brTok ")" 2, eofTok 3] ⟨["len"], []⟩
        = .ok (.callN (.identifierN "len" (some 0)) [] (some 0)) ∧
      parseWithConfig
          [idTok "x" 0, opTok "|" 2, idTok "len" 4, brTok "(" 5, brTok ")" 6, eofTok 7]
          ⟨["len"], []⟩
        = .ok (.builtinN "len" [.identifierN "x" (some 0)] (some 4))) :=
  ⟨by decide, by decide, c9_disabled_asymmetry "len" (by decide) (by decide)⟩

theorem foldUnary_ne_fail (op : String) (c : Node) (e : OptError) :
    foldUnary op c ≠ .failE e := by
  unfold foldUnary
  split_ifs <;> (cases c <;> simp)

theorem foldArray_ne_fail (ns : List Node) (e : OptError) : foldArray ns ≠ .failE e := by
  unfold foldArray
  cases ns with
  | nil => simp
  | cons a t => split_ifs <;> simp

theorem foldBuiltin_ne_fail (nm : String) (args : List Node) (e : OptError) :
    foldBuiltin nm args ≠ .failE e := by
  unfold foldBuiltin
  split_ifs
  · repeat' split
    all_goals simp
  · simp

theorem foldAdd_ne_fail (a b : Node) (e : OptError) : foldAdd a b ≠ .failE e := by
  unfold foldAdd
  split <;> simp

theorem foldSub_ne_fail (a b : Node) (e : OptError) : foldSub a b ≠ .failE e := by
  unfold foldSub
  split <;> simp

theorem foldMul_ne_fail (a b : Node) (e : OptError) : foldMul a b ≠ .failE e := by
  unfold foldMul
  split <;> simp

theorem foldDiv_ne_fail (a b : Node) (e : OptError) : foldDiv a b ≠ .failE e := by
  unfold foldDiv
  split <;> simp

theorem foldPow_ne_fail (a b : Node) (e : OptError) : foldPow a b ≠ .failE e := by
  unfold foldPow
  split <;> simp

theorem foldAndOp_ne_fail (a b : Node) (e : OptError) : foldAndOp a b ≠ .failE e := by
  unfold foldAndOp
  dsimp only
  split_ifs <;> simp

theorem foldOrOp_ne_fail (a b : Node) (e : OptError) : foldOrOp a b ≠ .failE e := by
  unfold foldOrOp
  dsimp only
  split_ifs <;> simp

theorem foldEqOp_ne_fail (a b : Node) (e : OptError) : foldEqOp a b ≠ .failE e := by
  unfold foldEqOp
  split <;> simp

theorem foldMod_fail_iff (a b : Node) (l : Option Pos) :
    (∃ e, foldMod a b l = .failE e) ↔
      ((∃ x lx, a = .integerN x lx) ∧ (∃ ly, b = .integerN 0 ly)) := by
  unfold foldMod
  constructor
  · rintro ⟨e, he⟩
    revert he
    split
    case _ x lx y ly =>
      split_ifs with hy
      · subst hy
        exact fun _ => ⟨⟨x, lx, rfl⟩, ⟨ly, rfl⟩⟩
      · simp
    case _ => simp
  · rintro ⟨⟨x, lx, rfl⟩, ⟨ly, rfl⟩⟩
    exact ⟨.located ⟨l, "integer divide by zero"⟩, by simp⟩

theorem foldBinary_fail_iff (op : String) (a b : Node) (l : Option Pos) :
    (∃ e, foldBinary op a b l = .failE e) ↔
      (op = "%" ∧ (∃ x lx, a = .integerN x lx) ∧ (∃ ly, b = .integerN 0 ly)) := by
  unfold foldBinary
  split_ifs with h1 h2 h3 h4 h5 h6 h7 h8 h9
  · refine iff_of_false ?_ ?_
    · rintro ⟨e, he⟩; exact foldAdd_ne_fail a b e he
    · rintro ⟨hop, -⟩; rw [h1] at hop; exact absurd hop (by decide)
  · refine iff_of_false ?_ ?_
    · rintro ⟨e, he⟩; exact foldSub_ne_fail a b e he
    · rintro ⟨hop, -⟩; rw [h2] at hop; exact absurd hop (by decide)
  · refine iff_of_false ?_ ?_
    · rintro ⟨e, he⟩; exact foldMul_ne_fail a b e he
    · rintro ⟨hop, -⟩; rw [h3] at hop; exact absurd hop (by decide)
  · refine iff_of_false ?_ ?_
    · rintro ⟨e, he⟩; exact foldDiv_ne_fail a b e he
    · rintro ⟨hop, -⟩; rw [h4] at hop; exact absurd hop (by decide)
  · rw [foldMod_fail_iff]
    simp [h5]
  · refine iff_of_false ?_ ?_
    · rintro ⟨e, he⟩; exact foldPow_ne_fail a b e he
    · rintro ⟨hop, -⟩
      subst hop
      rcases h6 with h6a | h6a <;> exact absurd h6a (by decide)
  · refine iff_of_false ?_ ?_
    · rintro ⟨e, he⟩; exact foldAndOp_ne_fail a b e he
    · rintro ⟨hop, -⟩
      subst hop
      rcases h7 with h7a | h7a <;> exact absurd h7a (by decide)
  · refine iff_of_false ?_ ?_
    · rintro ⟨e, he⟩; exact foldOrOp_ne_fail a b e he
    · rintro ⟨hop, -⟩
      subst hop
      rcases h8 with h8a | h8a <;> exact absurd h8a (by decide)
  · refine iff_of_false ?_ ?_
    · rintro ⟨e, he⟩; exact foldEqOp_ne_fail a b e he
    · rintro ⟨hop, -⟩; rw [h9] at hop; exact absurd hop (by decide)
  · refine iff_of_false ?_ ?_
    · rintro ⟨e, he⟩; cases he
    · rintro ⟨hop, -⟩; exact h5 hop

/-- C10 (confirmed): folding an integer division with literal zero divisor
raises no error and patches the node to the float quotient with zero
divisor, while the fold pass raises an error exactly on a Binary percent
node whose operands are integer literals with right operand zero. -/
theorem c10_div_zero_float_mod_iff :
    (∀ (x : Int) (lx ly l : Option Pos),
      foldVisit (.binaryN "/" (.integerN x lx) (.integerN 0 ly) l)
        = .patchN (.floatN (.fdiv (.ofInt x) (.ofInt 0)) none)) ∧
    (∀ n : Node, (∃ e, foldVisit n = .failE e) ↔
      ∃ x lx ly l, n = .binaryN "%" (.integerN x lx) (.integerN 0 ly) l) := by
  constructor
  · intro x lx ly l
    simp [foldVisit, foldBinary, foldDiv]
  · intro n
    cases n
    case binaryN op a b l =>
      rw [show foldVisit (.binaryN op a b l) = foldBinary op a b l from rfl,
        foldBinary_fail_iff]
      constructor
      · rintro ⟨hop, ⟨x, lx, ha⟩, ⟨ly, hb⟩⟩
        exact ⟨x, lx, ly, l, by rw [hop, ha, hb]⟩
      · rintro ⟨x, lx, ly, l2, heq⟩
        injection heq with e1 e2 e3 e4
        exact ⟨e1, ⟨x, lx, e2⟩, ⟨ly, e3⟩⟩
    case unaryN op c l =>
      refine iff_of_false ?_ ?_
      · rintro ⟨e, he⟩; exact foldUnary_ne_fail op c e he
      · rintro ⟨x, lx, ly, l2, heq⟩; cases heq
    case arrayN ns l =>
      refine iff_of_false ?_ ?_
      · rintro ⟨e, he⟩; exact foldArray_ne_fail ns e he
      · rintro ⟨x, lx, ly, l2, heq⟩; cases heq
    case builtinN nm args l =>
      refine iff_of_false ?_ ?_
      · rintro ⟨e, he⟩; exact foldBuiltin_ne_fail nm args e he
      · rintro ⟨x, lx, ly, l2, heq⟩; cases heq
    all_goals
      refine iff_of_false ?_ ?_
    all_goals
      try (rintro ⟨x, lx, ly, l2, heq⟩; cases heq)
    all_goals
      rintro ⟨e, he⟩
    all_goals
      cases he

end OExpr
